import Mathlib

/-!
Verification development for the tweets-scrapper pipeline.

The Python source is shallowly embedded: pure helpers become Lean
functions, the stateful scroll/collect loop becomes explicit state
passing, exceptions become Option results, and IEEE floating point
arithmetic is modelled as exact rational arithmetic over rationals.
-/

namespace Scrapper

/-- The pipe separator of the hash base string. -/
def pipeSep : String := "|"

/-- The comma-space separator used when joining mentions and hashtags. -/
def commaSep : String := ", "

/-- The N/A placeholder for missing fields. -/
def na : String := "N/A"

/-- All characters of a list satisfy the ASCII digit predicate. -/
def allDigits (l : List Char) : Bool := l.all (·.isDigit)

/-- Models Python str.strip: drop whitespace from both ends. -/
def pyStrip (l : List Char) : List Char :=
  ((l.dropWhile (·.isWhitespace)).reverse.dropWhile (·.isWhitespace)).reverse

/-- Numeric value of a digit string, most significant first. -/
def digitsToNat (l : List Char) : Nat :=
  l.foldl (fun a c => 10 * a + (c.toNat - 48)) 0

/-- Split a list at the first character satisfying the predicate;
returns the part before it and, when found, the part after it. -/
def splitFirst (p : Char → Bool) : List Char → List Char × Option (List Char)
  | [] => ([], none)
  | c :: rest =>
    if p c then ([], some rest)
    else
      let r := splitFirst p rest
      (c :: r.1, r.2)

/-- Mantissa of a Python float literal: digits with an optional single
decimal point and at least one digit overall. -/
def parseMantissa (l : List Char) : Option ℚ :=
  let s := splitFirst (· = '.') l
  let ip := s.1
  let fp := s.2.getD []
  if allDigits ip ∧ allDigits fp ∧ ip ++ fp ≠ [] then
    some ((digitsToNat (ip ++ fp) : ℚ) / 10 ^ fp.length)
  else none

/-- Exponent part of a Python float literal: optional sign, then digits. -/
def parseExp (l : List Char) : Option ℤ :=
  match l with
  | '+' :: r => if allDigits r ∧ r ≠ [] then some (digitsToNat r : ℤ) else none
  | '-' :: r => if allDigits r ∧ r ≠ [] then some (-(digitsToNat r : ℤ)) else none
  | r => if allDigits r ∧ r ≠ [] then some (digitsToNat r : ℤ) else none

/-- Unsigned Python float body: mantissa with optional exponent marker. -/
def pyFloatCore (l : List Char) : Option ℚ :=
  let s := splitFirst (fun c => c = 'e' ∨ c = 'E') l
  match s.2 with
  | none => parseMantissa s.1
  | some e => (parseMantissa s.1).bind (fun m => (parseExp e).map (fun z => m * 10 ^ z))

/-- Strip one optional leading sign: whether the sign was minus, and
the remaining characters. -/
def pySign (l : List Char) : Bool × List Char :=
  match l with
  | [] => (false, [])
  | c :: rest =>
    if c = '-' then (true, rest)
    else if c = '+' then (false, rest)
    else (false, l)

/-- Models Python float(str): strip whitespace, optional sign, then the
numeric body. The result is an exact rational (IEEE rounding is modelled
as exact arithmetic); the inf/nan literals and underscore digit
separators accepted by CPython are outside the modelled grammar. -/
def pyFloat (l : List Char) : Option ℚ :=
  let s := pySign (pyStrip l)
  (pyFloatCore s.2).map (fun q => if s.1 then -q else q)

/-- Models Python int(str): strip whitespace, optional sign, digits.
Underscore separators are outside the modelled grammar. -/
def pyInt (l : List Char) : Option ℤ :=
  let s := pySign (pyStrip l)
  if allDigits s.2 ∧ s.2 ≠ [] then
    some (if s.1 then -(digitsToNat s.2 : ℤ) else (digitsToNat s.2 : ℤ))
  else none

/-- Models Python int(float): truncation toward zero. -/
def ratTrunc (q : ℚ) : ℤ := q.num.tdiv q.den

/-- Remove every occurrence of a character, as str.replace(c, empty). -/
def removeAll (c : Char) (l : List Char) : List Char := l.filter (· ≠ c)

/-- The body of parse_count guarded by try in scrapper.py lines 30-36:
commas removed, whitespace stripped; a K anywhere selects the K branch
(all Ks removed, float value times 1000, truncated), else an M anywhere
selects the M branch, else plain int parsing. Returns none where the
Python body would raise. -/
def parse_count_try (text : String) : Option ℤ :=
  let t := pyStrip (removeAll ',' text.toList)
  if t.contains 'K' then
    (pyFloat (removeAll 'K' t)).map (fun q => ratTrunc (q * 1000))
  else if t.contains 'M' then
    (pyFloat (removeAll 'M' t)).map (fun q => ratTrunc (q * 1000000))
  else pyInt t

/-- scrapper.py parse_count: the except clause maps any failure to 0. -/
def parse_count (text : String) : ℤ := (parse_count_try text).getD 0

/-- Modelled from the spec (section 4.2), for comparison with the code:
the count parser as the spec words it, with the K or M multiplier applied
only to a TRAILING suffix, plain integers parsed directly, and 0 on any
other shape. -/
def parseCountSpecClaim (text : String) : ℤ :=
  let t := pyStrip (removeAll ',' text.toList)
  if t.getLast? = some 'K' then
    ((pyFloat t.dropLast).map (fun q => ratTrunc (q * 1000))).getD 0
  else if t.getLast? = some 'M' then
    ((pyFloat t.dropLast).map (fun q => ratTrunc (q * 1000000))).getD 0
  else (pyInt t).getD 0

/-- The amended count-parsing contract: a K occurring ANYWHERE in the
comma-stripped, whitespace-trimmed text selects the K branch (every K
removed, float value scaled by 1000, truncated); otherwise an M anywhere
selects the M branch; otherwise plain integer parsing; 0 on failure. -/
def parseCountAmended (text : String) : ℤ :=
  let t := pyStrip (removeAll ',' text.toList)
  if t.contains 'K' then
    ((pyFloat (removeAll 'K' t)).map (fun q => ratTrunc (1000 * q))).getD 0
  else if t.contains 'M' then
    ((pyFloat (removeAll 'M' t)).map (fun q => ratTrunc (1000000 * q))).getD 0
  else (pyInt t).getD 0

/-! ## Sentiment classifier (signals.py) -/

/-- Contiguous-sublist test on character lists. -/
def subList (n : List Char) : List Char → Bool
  | [] => n.isEmpty
  | c :: t => n.isPrefixOf (c :: t) || subList n t

/-- Python substring membership, as in the expression word in text. -/
def pyIn (needle haystack : String) : Bool :=
  subList needle.toList haystack.toList

/-- signals.py line 39. -/
def buy_keywords : List String :=
  ["buy", "bullish", "long", "breakout", "target", "support"]

/-- signals.py line 40. -/
def sell_keywords : List String :=
  ["sell", "bearish", "short", "resistance", "fall", "downside"]

/-- The three sentiment strings produced by classify_sentiment, as an
enumeration. -/
inductive Sentiment where
  | buy
  | sell
  | neutral
deriving DecidableEq

/-- Python str.lower, modelled characterwise with Char.toLower, which
agrees on ASCII text. -/
def pyLower (s : String) : String := String.mk (s.toList.map Char.toLower)

/-- Count of buy keywords occurring in the lowercased text
(signals.py line 43). -/
def buyScore (text : String) : Nat :=
  buy_keywords.countP (fun w => pyIn w (pyLower text))

/-- Count of sell keywords occurring in the lowercased text
(signals.py line 44). -/
def sellScore (text : String) : Nat :=
  sell_keywords.countP (fun w => pyIn w (pyLower text))

/-- signals.py classify_sentiment, lines 29-51. -/
def classify_sentiment (text : String) : Sentiment :=
  if buyScore text > sellScore text then Sentiment.buy
  else if sellScore text > buyScore text then Sentiment.sell
  else Sentiment.neutral

/-! ## Daily aggregation (signals.py) -/

/-- One aggregator input row: sentiment assigned by the classifier plus
the keyword score column from the feature stage. -/
structure ScoredPost where
  sentiment : Sentiment
  keyword_score : ℤ
deriving DecidableEq

/-- signals.py line 26. -/
def buy_threshold : ℚ := 0.65

/-- signals.py line 27. -/
def sell_threshold : ℚ := 0.35

/-- Round half to even on rationals, the rounding mode of Python round. -/
def roundHalfEven (q : ℚ) : ℤ :=
  if q - ⌊q⌋ < 1 / 2 then ⌊q⌋
  else if q - ⌊q⌋ > 1 / 2 then ⌊q⌋ + 1
  else if ⌊q⌋ % 2 = 0 then ⌊q⌋ else ⌊q⌋ + 1

/-- Models Python round(x, nd) on the exact-rational model of floats. -/
def pyRound (q : ℚ) (nd : Nat) : ℚ :=
  (roundHalfEven (q * 10 ^ nd) : ℚ) / 10 ^ nd

/-- total = len(group), signals.py line 63. -/
def volume (g : List ScoredPost) : Nat := g.length

/-- signals.py line 76. -/
def buyCount (g : List ScoredPost) : Nat :=
  g.countP (fun p => p.sentiment = Sentiment.buy)

/-- signals.py line 77. -/
def sellCount (g : List ScoredPost) : Nat :=
  g.countP (fun p => p.sentiment = Sentiment.sell)

/-- signals.py line 78. -/
def neutralCount (g : List ScoredPost) : Nat :=
  g.countP (fun p => p.sentiment = Sentiment.neutral)

/-- buy_pct = buy / total, signals.py line 80 (float division as ℚ). -/
def buyPct (g : List ScoredPost) : ℚ := (buyCount g : ℚ) / (volume g : ℚ)

/-- sell_pct, signals.py line 81. -/
def sellPct (g : List ScoredPost) : ℚ := (sellCount g : ℚ) / (volume g : ℚ)

/-- neutral_pct, signals.py line 82. -/
def neutralPct (g : List ScoredPost) : ℚ := (neutralCount g : ℚ) / (volume g : ℚ)

/-- avg_keyword = mean of the keyword_score column, signals.py line 83. -/
def avgKeyword (g : List ScoredPost) : ℚ :=
  (g.map (fun p => (p.keyword_score : ℚ))).sum / (volume g : ℚ)

/-- The weighted composite score before rounding, signals.py line 86. -/
def rawScore (g : List ScoredPost) : ℚ :=
  0.5 * buyPct g + 0.3 * (avgKeyword g / 5) + 0.2 * min ((volume g : ℚ) / 500) 1.0

/-- The signal ternary on line 87 of signals.py. -/
def signalOf (g : List ScoredPost) : Sentiment :=
  if rawScore g > buy_threshold then Sentiment.buy
  else if rawScore g < sell_threshold then Sentiment.sell
  else Sentiment.neutral

/-- The pd.Series produced per date group, signals.py lines 64-99. -/
structure DailyMetrics where
  tweet_volume : Nat
  buy_pct : ℚ
  sell_pct : ℚ
  neutral_pct : ℚ
  avg_keyword_score : ℚ
  composite_score : ℚ
  signal : Sentiment
  confidence_pct : ℚ
deriving DecidableEq

/-- signals.py compute_aggregated_signals, lines 53-99. -/
def compute_aggregated_signals (group : List ScoredPost) : DailyMetrics :=
  if volume group = 0 then
    { tweet_volume := 0, buy_pct := 0, sell_pct := 0, neutral_pct := 0
      avg_keyword_score := 0, composite_score := 0
      signal := Sentiment.neutral, confidence_pct := 0 }
  else
    { tweet_volume := volume group
      buy_pct := pyRound (buyPct group) 3
      sell_pct := pyRound (sellPct group) 3
      neutral_pct := pyRound (neutralPct group) 3
      avg_keyword_score := pyRound (avgKeyword group) 2
      composite_score := pyRound (rawScore group) 3
      signal := signalOf group
      confidence_pct := pyRound (rawScore group * 100) 1 }

/-- One row of the parquet file read by signals.py main. -/
structure RawRow where
  timestamp : String
  content : String
  keyword_score : ℤ
deriving DecidableEq

/-- Sentiment assignment of signals.py line 122 applied to one row. -/
def scoredOf (r : RawRow) : ScoredPost :=
  { sentiment := classify_sentiment r.content, keyword_score := r.keyword_score }

/-- signals.py lines 119-120: pd.to_datetime with errors coerce makes the
rows with unparseable timestamps NaT and the notna filter drops them.
The external to_datetime plus dt.date composite is abstracted as a
parameter returning an optional date code. -/
def keptRows (parseTs : String → Option ℤ) (rows : List RawRow) : List RawRow :=
  rows.filter (fun r => (parseTs r.timestamp).isSome)

/-- The date group a given date code collects, signals.py line 125. -/
def groupRows (parseTs : String → Option ℤ) (rows : List RawRow) (d : ℤ) :
    List RawRow :=
  (keptRows parseTs rows).filter (fun r => parseTs r.timestamp = some d)

/-- The distinct observed dates (pandas sorts group keys; key order is
not relevant to any claim, so first-occurrence order is used). -/
def datesOf (parseTs : String → Option ℤ) (rows : List RawRow) : List ℤ :=
  ((keptRows parseTs rows).filterMap (fun r => parseTs r.timestamp)).dedup

/-- The grouped aggregation of signals.py lines 119-125 with file IO
stripped: one DailyMetrics row per observed date. -/
def aggregate_signals_main (parseTs : String → Option ℤ) (rows : List RawRow) :
    List (ℤ × DailyMetrics) :=
  (datesOf parseTs rows).map
    (fun d => (d, compute_aggregated_signals ((groupRows parseTs rows d).map scoredOf)))

/-! ## Collector (scrapper.py) -/

/-- Word characters of the regex patterns in extract_entities; the
Python regex class includes further Unicode letters, which no claim
touches. -/
def wordChar (c : Char) : Bool := c.isAlphanum || c = '_'

/-- Left-to-right non-overlapping maximal matches of marker followed by
word characters, as re.findall in extract_entities; the fuel argument
(initialised to the text length, and sufficient because every step
consumes at least one character) keeps the recursion structural. -/
def findTagsAux (marker : Char) : Nat → List Char → List (List Char)
  | 0, _ => []
  | _, [] => []
  | fuel + 1, c :: rest =>
    if c = marker ∧ rest.takeWhile wordChar ≠ [] then
      (marker :: rest.takeWhile wordChar) ::
        findTagsAux marker fuel (rest.drop (rest.takeWhile wordChar).length)
    else findTagsAux marker fuel rest

/-- The match list of one regex pattern over the text. -/
def findTags (marker : Char) (l : List Char) : List (List Char) :=
  findTagsAux marker l.length l

/-- scrapper.py extract_entities: the mention matches and the hashtag
matches of the text. -/
def extract_entities (text : String) : List String × List String :=
  ((findTags '@' text.toList).map (fun l => String.mk l),
   (findTags '#' text.toList).map (fun l => String.mk l))

/-- scrapper.py get_tweet_hash, lines 40-43: the md5 hex digest of the
base string is modelled by the base string itself (the digest of the
external hashlib is injective up to negligible collisions, so equality
of digests is modelled as equality of base strings). -/
def get_tweet_hash (username timestamp content : String) : String :=
  username ++ pipeSep ++ timestamp ++ pipeSep ++ String.mk (pyStrip content.toList)

/-- One article container as the per-block extraction sees it:
the inner text, the optional time attribute, the optional user span
text, the optional like and retweet span texts, and whether the
awaited extraction calls succeed at all (false models the per-block
exception caught on lines 113-115). -/
structure Block where
  extract_ok : Bool
  content : String
  time_attr : Option String
  user_text : Option String
  likes_text : Option String
  retweets_text : Option String
deriving DecidableEq

/-- One collected tweet dictionary, scrapper.py lines 95-104. -/
structure Tweet where
  hashtag : String
  username : String
  timestamp : String
  content : String
  likes : ℤ
  retweets : ℤ
  mentions : String
  hashtags : String
deriving DecidableEq

/-- Newline flattening of line 99: content.replace of newline by space. -/
def flattenNewlines (s : String) : String :=
  String.mk (s.toList.map (fun c => if c = '\n' then ' ' else c))

/-- The mutable loop state of scroll_and_collect_tweets: the shared
seen_hashes set (as a list of hash strings) and the tweets_data list.
Each retained tweet is paired with the ContentHash computed for it on
line 89; the source derives this hash but does not store it, and it is
carried here so dedup invariants can be stated about the output. -/
structure LoopState where
  seen : List String
  tweets : List (String × Tweet)
deriving DecidableEq

/-- The body of the inner for loop over tweet containers, scrapper.py
lines 70-104 (without the cap check, which follows an append and is
modelled in blocksLoop): skip on extraction failure or whitespace-only
text; otherwise fall back to N/A fields and 0 counts, hash, dedup
against seen_hashes, and append. -/
def processBlock (tag : String) (st : LoopState) (b : Block) : LoopState :=
  if b.extract_ok = false then st
  else if pyStrip b.content.toList = [] then st
  else
    let timestamp := b.time_attr.getD na
    let username := b.user_text.getD na
    let likes := (b.likes_text.map parse_count).getD 0
    let retweets := (b.retweets_text.map parse_count).getD 0
    let ment := (findTags '@' b.content.toList).map (fun l => String.mk l)
    let tags := (findTags '#' b.content.toList).map (fun l => String.mk l)
    let h := get_tweet_hash username timestamp b.content
    if h ∈ st.seen then st
    else
      { seen := h :: st.seen
        tweets := st.tweets ++
          [(h, { hashtag := tag, username := username, timestamp := timestamp
                 content := flattenNewlines b.content, likes := likes
                 retweets := retweets
                 mentions := String.intercalate commaSep ment
                 hashtags := String.intercalate commaSep tags })] }

/-- The inner for loop over the currently visible containers, with the
early return of lines 109-111: right after an append that brings the
count to max_tweets or beyond, the whole function returns. The Bool
records whether that early return fired. -/
def blocksLoop (tag : String) (maxT : Nat) :
    List Block → LoopState → LoopState × Bool
  | [], st => (st, false)
  | b :: rest, st =>
    let st2 := processBlock tag st b
    if st.tweets.length < st2.tweets.length ∧ maxT ≤ st2.tweets.length then
      (st2, true)
    else blocksLoop tag maxT rest st2

/-- The outer scroll loop, lines 63-117: one entry of the feed list is
the container list the page query returns on that scroll iteration; an
early return from the inner loop ends the whole loop. -/
def scrollLoop (tag : String) (maxT : Nat) :
    List (List Block) → LoopState → LoopState
  | [], st => st
  | blocks :: restFeed, st =>
    let r := blocksLoop tag maxT blocks st
    if r.2 then r.1 else scrollLoop tag maxT restFeed r.1

/-- scrapper.py scroll_and_collect_tweets: at most max_scrolls feed
iterations (a range(max_scrolls) iteration whose page query yields no
containers is a no-op, so the feed list is truncated to max_scrolls),
starting from an empty tweets_data and the caller-supplied seen_hashes.
Returns the final seen_hashes (mutated in place in the source) together
with tweets_data. -/
def scroll_and_collect_tweets (tag : String) (feed : List (List Block))
    (seen_hashes : List String) (maxT maxScrolls : Nat) : LoopState :=
  scrollLoop tag maxT (feed.take maxScrolls) { seen := seen_hashes, tweets := [] }

/-- One hashtag of a multi-tag run: its query string and the feed its
search page yields; none models a navigation failure, which the except
clause on lines 149-150 logs and swallows. -/
structure TagFeed where
  tag : String
  feed : Option (List (List Block))
deriving DecidableEq

/-- The sequential for loop over tags, scrapper.py lines 138-150: one
shared seen_hashes set and one growing all_data list. -/
def tagsLoop (maxT maxScrolls : Nat) :
    List TagFeed → List String → List (String × Tweet) →
    List String × List (String × Tweet)
  | [], seen, all => (seen, all)
  | tf :: rest, seen, all =>
    match tf.feed with
    | none => tagsLoop maxT maxScrolls rest seen all
    | some f =>
      let st := scroll_and_collect_tweets tf.tag f seen maxT maxScrolls
      tagsLoop maxT maxScrolls rest st.seen (all ++ st.tweets)

/-- The two observable outcomes of scrape_multiple_tags, lines 154-167:
either the no-data report (error log plus console message, no files
written) or a successful save of all rows. The console/file effects are
reified as this value. -/
inductive ScrapeOutcome where
  | noData
  | saved (rows : Nat)
deriving DecidableEq

/-- scrapper.py scrape_multiple_tags with browser IO stripped: collect
every tag sequentially from an initially empty seen set, then branch on
emptiness of all_data exactly as lines 154-167 do. -/
def scrape_multiple_tags_core (tfs : List TagFeed) (maxT maxScrolls : Nat) :
    List (String × Tweet) × ScrapeOutcome :=
  let r := tagsLoop maxT maxScrolls tfs [] []
  (r.2, if r.2.isEmpty then ScrapeOutcome.noData else ScrapeOutcome.saved r.2.length)

/-! ## Specification predicates and concrete inputs used in statements -/

/-- No two retained records share a ContentHash. -/
def DistinctHashes (l : List (String × Tweet)) : Prop :=
  List.Pairwise (fun a b => a.1 ≠ b.1) l

/-- Invariant of the collection loop relative to the seen set it started
from: retained hashes are pairwise distinct, every retained hash is in
the current seen set, the seen set only grows, every hash added to the
seen set belongs to a retained record, no retained hash was seen at the
start, and every retained body has a non-whitespace character. -/
def CollectInv (base : List String) (st : LoopState) : Prop :=
  DistinctHashes st.tweets
  ∧ (∀ p ∈ st.tweets, p.1 ∈ st.seen)
  ∧ (∀ x ∈ base, x ∈ st.seen)
  ∧ (∀ x ∈ st.seen, x ∈ base ∨ x ∈ st.tweets.map Prod.fst)
  ∧ (∀ p ∈ st.tweets, p.1 ∉ base)
  ∧ (∀ p ∈ st.tweets, (p.2.content.toList.any fun c => !c.isWhitespace) = true)

/-- The body of end-to-end example 1 of the spec. -/
def exTweet1 : String := "Nifty breakout, target 20000, go long"

/-- Count text whose K is not a trailing suffix. -/
def exMidK : String := "1K2"

/-- Count text parsing to a negative integer. -/
def exNeg : String := "-5"

/-- Count texts of the spec examples. -/
def exKCount : String := "1.2K"

/-- Count text for the M example. -/
def exMCount : String := "3M"

/-- Plain integer count text. -/
def exPlainCount : String := "450"

/-- A hashtag string for concrete collector runs. -/
def exTag : String := "#nifty50"

/-- A well-formed tweet container with body hello. -/
def exBlock : Block :=
  { extract_ok := true, content := "hello", time_attr := none
    user_text := none, likes_text := none, retweets_text := none }

/-- A second well-formed container with a different body. -/
def exBlock2 : Block :=
  { extract_ok := true, content := "world", time_attr := none
    user_text := none, likes_text := none, retweets_text := none }

/-- The record the collector retains for exBlock under exTag. -/
def exPair : String × Tweet :=
  (na ++ pipeSep ++ na ++ pipeSep ++ "hello",
   { hashtag := exTag, username := na, timestamp := na, content := "hello"
     likes := 0, retweets := 0, mentions := "", hashtags := "" })

/-- A one-element group for aggregator witnesses. -/
def exGroup1 : List ScoredPost := [{ sentiment := Sentiment.neutral, keyword_score := 0 }]

/-- A one-element buy group for the percentage-law witness. -/
def exGroup2 : List ScoredPost := [{ sentiment := Sentiment.buy, keyword_score := 1 }]

/-- A timestamp the witness parser accepts. -/
def exGoodTs : String := "2025-08-01T10:00:00"

/-- A timestamp the witness parser rejects. -/
def exBadTs : String := "garbage"

/-- A date parser for witnesses: accepts only exGoodTs. -/
def exParseTs (s : String) : Option ℤ := if s = exGoodTs then some 0 else none

/-- A row with an unparseable timestamp. -/
def exBadRow : RawRow := { timestamp := exBadTs, content := "hello", keyword_score := 0 }

/-- A row with a parseable timestamp. -/
def exGoodRow : RawRow := { timestamp := exGoodTs, content := "hello", keyword_score := 0 }

/-- The witness input rows for the exclusion theorem. -/
def exRows : List RawRow := [exBadRow, exGoodRow]

/-- An empty count text. -/
def exEmpty : String := ""

/-! ## Helper lemmas -/

theorem mem_of_mem_dropWhile {p : Char → Bool} {l : List Char} {x : Char}
    (h : x ∈ l.dropWhile p) : x ∈ l := by
  induction l with
  | nil => simp at h
  | cons a t ih =>
    rw [List.dropWhile_cons] at h
    by_cases hp : p a = true
    · simp only [hp, if_true] at h
      exact List.mem_cons_of_mem a (ih h)
    · simp only [hp, if_false] at h
      exact h

theorem mem_of_mem_pyStrip {l : List Char} {x : Char} (h : x ∈ pyStrip l) :
    x ∈ l := by
  unfold pyStrip at h
  rw [List.mem_reverse] at h
  have h1 := mem_of_mem_dropWhile h
  rw [List.mem_reverse] at h1
  exact mem_of_mem_dropWhile h1

theorem mem_of_mem_removeAll {c : Char} {l : List Char} {x : Char}
    (h : x ∈ removeAll c l) : x ∈ l :=
  List.mem_of_mem_filter h

theorem ratTrunc_intCast (n : ℤ) : ratTrunc (n : ℚ) = n := by
  simp [ratTrunc, Rat.num_intCast, Rat.den_intCast, Int.tdiv_one]

theorem ratTrunc_eq_of_eq {q : ℚ} {n : ℤ} (h : q = (n : ℚ)) : ratTrunc q = n := by
  rw [h, ratTrunc_intCast]

theorem ratTrunc_nonneg {q : ℚ} (h : 0 ≤ q) : 0 ≤ ratTrunc q := by
  unfold ratTrunc
  exact Int.tdiv_nonneg (Rat.num_nonneg.mpr h) (Int.natCast_nonneg q.den)

theorem parseMantissa_nonneg {l : List Char} {q : ℚ}
    (h : parseMantissa l = some q) : 0 ≤ q := by
  simp only [parseMantissa] at h
  split_ifs at h
  rw [Option.some_inj] at h
  rw [← h]
  positivity

theorem pyFloatCore_nonneg {l : List Char} {q : ℚ}
    (h : pyFloatCore l = some q) : 0 ≤ q := by
  simp only [pyFloatCore] at h
  rcases hs : (splitFirst (fun c => c = 'e' ∨ c = 'E') l).2 with _ | e
  · rw [hs] at h
    exact parseMantissa_nonneg h
  · rw [hs] at h
    rcases Option.bind_eq_some.mp h with ⟨m, hm, h2⟩
    rcases Option.map_eq_some'.mp h2 with ⟨z, _, h3⟩
    rw [← h3]
    have hm0 : 0 ≤ m := parseMantissa_nonneg hm
    have hz : (0 : ℚ) ≤ 10 ^ z := zpow_nonneg (by norm_num) z
    positivity

theorem pySign_not_neg {l : List Char} (hm : ('-' : Char) ∉ l) :
    (pySign l).1 = false := by
  cases l with
  | nil => rfl
  | cons c rest =>
    have hc : c ≠ '-' := fun hc => hm (hc ▸ List.mem_cons_self c rest)
    by_cases hp : c = '+' <;> simp [pySign, hc, hp]

theorem pyFloat_nonneg {l : List Char} {q : ℚ} (hm : ('-' : Char) ∉ l)
    (h : pyFloat l = some q) : 0 ≤ q := by
  simp only [pyFloat] at h
  have hsg : (pySign (pyStrip l)).1 = false :=
    pySign_not_neg (fun hx => hm (mem_of_mem_pyStrip hx))
  rw [hsg] at h
  rcases Option.map_eq_some'.mp h with ⟨m, hcore, heq⟩
  simp only [Bool.false_eq_true, if_false] at heq
  rw [← heq]
  exact pyFloatCore_nonneg hcore

theorem pyInt_nonneg {l : List Char} {n : ℤ} (hm : ('-' : Char) ∉ l)
    (h : pyInt l = some n) : 0 ≤ n := by
  simp only [pyInt] at h
  have hsg : (pySign (pyStrip l)).1 = false :=
    pySign_not_neg (fun hx => hm (mem_of_mem_pyStrip hx))
  rw [hsg] at h
  rw [if_neg Bool.false_ne_true] at h
  split_ifs at h
  rw [Option.some_inj] at h
  omega

/-! ## Claims about the leaf helpers -/

/-- C4: for every text body the classifier returns buy exactly when
strictly more buy keywords than sell keywords occur (case-insensitive
substring matching), sell exactly when strictly more sell keywords
occur, and neutral exactly on ties including zero-zero; the example
body yields buy-hits 3, sell-hits 0 and sentiment buy. -/
theorem claim_C4_classifier_rule :
    (∀ text : String,
      (classify_sentiment text = Sentiment.buy ↔ sellScore text < buyScore text)
      ∧ (classify_sentiment text = Sentiment.sell ↔ buyScore text < sellScore text)
      ∧ (classify_sentiment text = Sentiment.neutral ↔ buyScore text = sellScore text))
    ∧ buyScore exTweet1 = 3 ∧ sellScore exTweet1 = 0
    ∧ classify_sentiment exTweet1 = Sentiment.buy := by
  refine ⟨fun text => ?_, by decide, by decide, by decide⟩
  unfold classify_sentiment
  refine ⟨?_, ?_, ?_⟩ <;> split_ifs with h1 h2 <;> simp_all <;> omega

/-- C5 counterexample: the source count parser reacts to a K anywhere
in the text, not only to a trailing K: on the text 1K2 it strips the K
and returns 12000, while the spec-worded trailing-suffix parser returns
the failure fallback 0. -/
theorem claim_C5_counterexample :
    parse_count exMidK = 12000 ∧ parseCountSpecClaim exMidK = 0
    ∧ parse_count exMidK ≠ parseCountSpecClaim exMidK := by
  have h : parse_count exMidK = ratTrunc ((12 : ℚ) / 10 ^ 0 * 1000) := rfl
  have h1 : parse_count exMidK = 12000 := by
    rw [h]
    exact ratTrunc_eq_of_eq (by norm_num)
  have h2 : parseCountSpecClaim exMidK = 0 := by decide
  refine ⟨h1, h2, ?_⟩
  rw [h1, h2]
  decide

/-- C5 amended: parse_count strips commas and surrounding whitespace,
applies the K scaling whenever a K occurs anywhere (all Ks removed,
float value scaled by 1000, truncated), else the M scaling whenever an
M occurs anywhere, else parses a plain integer, and returns 0 on any
parse failure; the four spec examples hold. -/
theorem claim_C5_amended :
    (∀ s : String, parse_count s = parseCountAmended s)
    ∧ parse_count exKCount = 1200 ∧ parse_count exMCount = 3000000
    ∧ parse_count exPlainCount = 450 ∧ parse_count exEmpty = 0 := by
  refine ⟨fun s => ?_, ?_, ?_, by decide, by decide⟩
  · simp only [parse_count, parse_count_try, parseCountAmended]
    by_cases hK : (pyStrip (removeAll ',' s.toList)).contains 'K'
    · simp only [hK, if_true]
      cases hf : pyFloat (removeAll 'K' (pyStrip (removeAll ',' s.toList))) with
      | none => simp [hf]
      | some q => simp [hf, mul_comm]
    · simp only [hK, if_false, Bool.false_eq_true]
      by_cases hM : (pyStrip (removeAll ',' s.toList)).contains 'M'
      · simp only [hM, if_true]
        cases hf : pyFloat (removeAll 'M' (pyStrip (removeAll ',' s.toList))) with
        | none => simp [hf]
        | some q => simp [hf, mul_comm]
      · simp only [hM, if_false, Bool.false_eq_true]
  · have h : parse_count exKCount = ratTrunc ((12 : ℚ) / 10 ^ 1 * 1000) := rfl
    rw [h]
    exact ratTrunc_eq_of_eq (by norm_num)
  · have h : parse_count exMCount = ratTrunc ((3 : ℚ) / 10 ^ 0 * 1000000) := rfl
    rw [h]
    exact ratTrunc_eq_of_eq (by norm_num)

/-- C6 counterexample: parse_count applied to the text -5 follows the
plain int branch and returns -5, a negative value, refuting the
unconditional nonnegativity contract. -/
theorem claim_C6_counterexample :
    parse_count exNeg = -5 ∧ parse_count exNeg < 0 := by
  constructor <;> decide

/-- C6 amended: parse_count is total (the except clause maps every
failure to 0, so no exception reaches the caller), and its result is
nonnegative for every input string in which no minus sign occurs; an
input carrying a minus sign can produce the parsed negative value. -/
theorem claim_C6_amended (s : String) (h : ('-' : Char) ∉ s.toList) :
    0 ≤ parse_count s := by
  simp only [parse_count, parse_count_try]
  have hmt : ('-' : Char) ∉ pyStrip (removeAll ',' s.toList) :=
    fun hx => h (mem_of_mem_removeAll (mem_of_mem_pyStrip hx))
  by_cases hK : (pyStrip (removeAll ',' s.toList)).contains 'K'
  · simp only [hK, if_true]
    cases hf : pyFloat (removeAll 'K' (pyStrip (removeAll ',' s.toList))) with
    | none => simp [hf]
    | some q =>
      have hq : 0 ≤ q := pyFloat_nonneg (fun hx => hmt (mem_of_mem_removeAll hx)) hf
      simp only [Option.map_some', Option.getD_some]
      exact ratTrunc_nonneg (by positivity)
  · simp only [hK, if_false, Bool.false_eq_true]
    by_cases hM : (pyStrip (removeAll ',' s.toList)).contains 'M'
    · simp only [hM, if_true]
      cases hf : pyFloat (removeAll 'M' (pyStrip (removeAll ',' s.toList))) with
      | none => simp [hf]
      | some q =>
        have hq : 0 ≤ q := pyFloat_nonneg (fun hx => hmt (mem_of_mem_removeAll hx)) hf
        simp only [Option.map_some', Option.getD_some]
        exact ratTrunc_nonneg (by positivity)
    · simp only [hM, if_false, Bool.false_eq_true]
      cases hi : pyInt (pyStrip (removeAll ',' s.toList)) with
      | none => simp [hi]
      | some n =>
        have := pyInt_nonneg hmt hi
        simp only [hi, Option.getD_some]
        exact this

/-- C6 witness: the text 1.2K contains no minus sign, and the amended
theorem yields a nonnegative result on it. -/
theorem claim_C6_witness : 0 ≤ parse_count exKCount :=
  claim_C6_amended exKCount (by decide)

/-! ## Rounding and aggregation lemmas -/

theorem abs_roundHalfEven_sub_le (q : ℚ) : |(roundHalfEven q : ℚ) - q| ≤ 1 / 2 := by
  unfold roundHalfEven
  have h1 : (⌊q⌋ : ℚ) ≤ q := Int.floor_le q
  have h2 : q < ⌊q⌋ + 1 := Int.lt_floor_add_one q
  split_ifs with ha hb hc <;> rw [abs_le] <;> push_cast <;>
    constructor <;> linarith

theorem abs_pyRound_sub_le (q : ℚ) (nd : Nat) :
    |pyRound q nd - q| ≤ 1 / (2 * 10 ^ nd) := by
  unfold pyRound
  have hpos : (0 : ℚ) < 10 ^ nd := by positivity
  have h := abs_roundHalfEven_sub_le (q * 10 ^ nd)
  have hrw : (roundHalfEven (q * 10 ^ nd) : ℚ) / 10 ^ nd - q
      = ((roundHalfEven (q * 10 ^ nd) : ℚ) - q * 10 ^ nd) / 10 ^ nd := by
    field_simp
    ring
  rw [hrw, abs_div, abs_of_pos hpos, ← div_div]
  rw [div_le_div_iff_of_pos_right hpos]
  exact h

theorem counts_partition (g : List ScoredPost) :
    buyCount g + sellCount g + neutralCount g = g.length := by
  induction g with
  | nil => rfl
  | cons p t ih =>
    unfold buyCount sellCount neutralCount at *
    rw [List.countP_cons, List.countP_cons, List.countP_cons, List.length_cons]
    cases hp : p.sentiment <;> simp [hp] <;> omega

theorem volume_ne_zero {g : List ScoredPost} (h : g ≠ []) : volume g ≠ 0 := by
  simpa [volume, List.length_eq_zero] using h

theorem signalOf_iff (g : List ScoredPost) :
    (signalOf g = Sentiment.buy ↔ buy_threshold < rawScore g)
    ∧ (signalOf g = Sentiment.sell ↔ rawScore g < sell_threshold)
    ∧ (signalOf g = Sentiment.neutral ↔
        sell_threshold ≤ rawScore g ∧ rawScore g ≤ buy_threshold) := by
  have hts : sell_threshold < buy_threshold := by
    norm_num [sell_threshold, buy_threshold]
  unfold signalOf
  split_ifs with h1 h2
  · exact ⟨iff_of_true rfl h1,
      iff_of_false (by simp) (by intro hx; linarith),
      iff_of_false (by simp) (by rintro ⟨hx1, hx2⟩; linarith)⟩
  · exact ⟨iff_of_false (by simp) (by intro hx; linarith),
      iff_of_true rfl h2,
      iff_of_false (by simp) (by rintro ⟨hx1, hx2⟩; linarith)⟩
  · exact ⟨iff_of_false (by simp) h1,
      iff_of_false (by simp) h2,
      iff_of_true rfl ⟨not_lt.mp h2, not_lt.mp h1⟩⟩

/-! ## Claims about the aggregator -/

/-- C1: on every non-empty date group the composite score is the
weighted blend 0.5 buyPct + 0.3 (avgKeyword over 5) + 0.2 min(volume
over 500, 1), rounded to 3 decimals in the output row, and the signal
thresholds are strict: buy exactly above 0.65, sell exactly below 0.35,
neutral otherwise, so a score of exactly 0.65 or exactly 0.35 is
neutral. -/
theorem claim_C1_composite_thresholds (g : List ScoredPost) (h : g ≠ []) :
    (compute_aggregated_signals g).composite_score
      = pyRound (0.5 * buyPct g + 0.3 * (avgKeyword g / 5)
          + 0.2 * min ((volume g : ℚ) / 500) 1.0) 3
    ∧ ((compute_aggregated_signals g).signal = Sentiment.buy ↔ (0.65 : ℚ) < rawScore g)
    ∧ ((compute_aggregated_signals g).signal = Sentiment.sell ↔ rawScore g < (0.35 : ℚ))
    ∧ ((compute_aggregated_signals g).signal = Sentiment.neutral ↔
        (0.35 : ℚ) ≤ rawScore g ∧ rawScore g ≤ (0.65 : ℚ))
    ∧ (rawScore g = (0.65 : ℚ) → (compute_aggregated_signals g).signal = Sentiment.neutral)
    ∧ (rawScore g = (0.35 : ℚ) → (compute_aggregated_signals g).signal = Sentiment.neutral) := by
  have hv : volume g ≠ 0 := volume_ne_zero h
  have hsig : (compute_aggregated_signals g).signal = signalOf g := by
    simp only [compute_aggregated_signals, if_neg hv]
  obtain ⟨hb, hs, hn⟩ := signalOf_iff g
  have hbt : buy_threshold = (0.65 : ℚ) := rfl
  have hst : sell_threshold = (0.35 : ℚ) := rfl
  rw [hbt] at hb
  rw [hst] at hs
  rw [hbt, hst] at hn
  refine ⟨?_, hsig ▸ hb, hsig ▸ hs, hsig ▸ hn, ?_, ?_⟩
  · simp only [compute_aggregated_signals, if_neg hv]
    rfl
  · intro he
    rw [hsig, hn]
    constructor <;> rw [he] <;> norm_num
  · intro he
    rw [hsig, hn]
    constructor <;> rw [he] <;> norm_num

/-- C1 witness: the theorem applies to the concrete one-element neutral
group. -/
theorem claim_C1_witness :
    (compute_aggregated_signals exGroup1).signal = Sentiment.buy ↔
      (0.65 : ℚ) < rawScore exGroup1 :=
  (claim_C1_composite_thresholds exGroup1 (by decide)).2.1

/-- C9: on every date group with positive volume the three sentiment
fractions sum to exactly 1 before rounding, and the three rounded
output percentages sum to 1 within the rounding epsilon 3/2000. -/
theorem claim_C9_percentage_law (g : List ScoredPost) (h : g ≠ []) :
    buyPct g + sellPct g + neutralPct g = 1
    ∧ |((compute_aggregated_signals g).buy_pct
        + (compute_aggregated_signals g).sell_pct
        + (compute_aggregated_signals g).neutral_pct) - 1| ≤ 3 / 2000 := by
  have hv : volume g ≠ 0 := volume_ne_zero h
  have hq : (volume g : ℚ) ≠ 0 := Nat.cast_ne_zero.mpr hv
  have hsum : buyPct g + sellPct g + neutralPct g = 1 := by
    unfold buyPct sellPct neutralPct
    rw [div_add_div_same, div_add_div_same, div_eq_one_iff_eq hq]
    exact_mod_cast counts_partition g
  refine ⟨hsum, ?_⟩
  have hfields : (compute_aggregated_signals g).buy_pct = pyRound (buyPct g) 3
      ∧ (compute_aggregated_signals g).sell_pct = pyRound (sellPct g) 3
      ∧ (compute_aggregated_signals g).neutral_pct = pyRound (neutralPct g) 3 := by
    refine ⟨?_, ?_, ?_⟩ <;> simp only [compute_aggregated_signals, if_neg hv]
  obtain ⟨hf1, hf2, hf3⟩ := hfields
  rw [hf1, hf2, hf3]
  have e1 := abs_pyRound_sub_le (buyPct g) 3
  have e2 := abs_pyRound_sub_le (sellPct g) 3
  have e3 := abs_pyRound_sub_le (neutralPct g) 3
  norm_num at e1 e2 e3
  have hdecomp : pyRound (buyPct g) 3 + pyRound (sellPct g) 3 + pyRound (neutralPct g) 3 - 1
      = (pyRound (buyPct g) 3 - buyPct g) + ((pyRound (sellPct g) 3 - sellPct g)
        + (pyRound (neutralPct g) 3 - neutralPct g)) := by
    linarith
  rw [hdecomp]
  calc |(pyRound (buyPct g) 3 - buyPct g) + ((pyRound (sellPct g) 3 - sellPct g)
        + (pyRound (neutralPct g) 3 - neutralPct g))|
      ≤ |pyRound (buyPct g) 3 - buyPct g| + |(pyRound (sellPct g) 3 - sellPct g)
        + (pyRound (neutralPct g) 3 - neutralPct g)| := abs_add _ _
    _ ≤ |pyRound (buyPct g) 3 - buyPct g| + (|pyRound (sellPct g) 3 - sellPct g|
        + |pyRound (neutralPct g) 3 - neutralPct g|) := by
        have := abs_add (pyRound (sellPct g) 3 - sellPct g)
          (pyRound (neutralPct g) 3 - neutralPct g)
        linarith
    _ ≤ 3 / 2000 := by linarith

/-- C9 witness: the percentage law instantiated at a one-element buy
group. -/
theorem claim_C9_witness :
    buyPct exGroup2 + sellPct exGroup2 + neutralPct exGroup2 = 1 :=
  (claim_C9_percentage_law exGroup2 (by decide)).1

/-- C7: a record whose timestamp fails to parse is dropped by the notna
filter, so it belongs to no date group; every output row counts exactly
its own group and every grouped record parses to the group date; the
coerce-then-filter pipeline is total, so no parse failure escapes as an
exception. -/
theorem claim_C7_unparseable_excluded (parseTs : String → Option ℤ)
    (rows : List RawRow) (r : RawRow) (hr : r ∈ rows)
    (hn : parseTs r.timestamp = none) :
    (∀ d : ℤ, r ∉ groupRows parseTs rows d)
    ∧ (∀ d m, (d, m) ∈ aggregate_signals_main parseTs rows →
        m.tweet_volume = (groupRows parseTs rows d).length
        ∧ ∀ r2 ∈ groupRows parseTs rows d, parseTs r2.timestamp = some d) := by
  constructor
  · intro d hd
    have h2 := (List.mem_filter.mp hd).2
    rw [hn] at h2
    simp at h2
  · intro d m hm
    obtain ⟨d0, hd0, heq⟩ := List.mem_map.mp hm
    have hd : d0 = d := congrArg Prod.fst heq
    have hmm : compute_aggregated_signals
        ((groupRows parseTs rows d0).map scoredOf) = m := congrArg Prod.snd heq
    subst hd
    have hgrp : ∀ r2 ∈ groupRows parseTs rows d0, parseTs r2.timestamp = some d0 := by
      intro r2 hr2
      simpa using (List.mem_filter.mp hr2).2
    refine ⟨?_, hgrp⟩
    have hne : groupRows parseTs rows d0 ≠ [] := by
      obtain ⟨r0, hr0, hr0d⟩ := List.mem_filterMap.mp (List.mem_dedup.mp hd0)
      have : r0 ∈ groupRows parseTs rows d0 :=
        List.mem_filter.mpr ⟨hr0, by simp [hr0d]⟩
      exact List.ne_nil_of_mem this
    have hvol : volume ((groupRows parseTs rows d0).map scoredOf) ≠ 0 := by
      simpa [volume, List.length_eq_zero, List.map_eq_nil_iff] using hne
    rw [← hmm]
    simp only [compute_aggregated_signals, if_neg hvol]
    simp [volume, List.length_map]

/-- C7 witness: with a parser accepting only one fixed timestamp, the
row carrying an unparseable timestamp is not in the date-0 group. -/
theorem claim_C7_witness : exBadRow ∉ groupRows exParseTs exRows 0 :=
  (claim_C7_unparseable_excluded exParseTs exRows exBadRow (by decide) (by decide)).1 0

/-! ## Collector lemmas -/

theorem pyStrip_ne_nil_any {l : List Char} (h : pyStrip l ≠ []) :
    (l.any fun c => !c.isWhitespace) = true := by
  by_contra hc
  apply h
  have hall : ∀ c ∈ l, c.isWhitespace = true := by
    intro c hcm
    rcases hw : c.isWhitespace with _ | _
    · exfalso
      apply hc
      exact List.any_eq_true.mpr ⟨c, hcm, by rw [hw]; rfl⟩
    · rfl
  unfold pyStrip
  have h1 : l.dropWhile (·.isWhitespace) = [] :=
    List.dropWhile_eq_nil_iff.mpr (fun x hx => hall x hx)
  rw [h1]
  rfl

theorem flatten_any_nonws {s : String} (h : pyStrip s.toList ≠ []) :
    ((flattenNewlines s).toList.any fun c => !c.isWhitespace) = true := by
  rcases List.any_eq_true.mp (pyStrip_ne_nil_any h) with ⟨c, hc, hcw⟩
  apply List.any_eq_true.mpr
  refine ⟨c, ?_, hcw⟩
  have hcn : c ≠ '\n' := by
    intro hh
    subst hh
    simp at hcw
  have hmem := List.mem_map_of_mem (fun x => if x = '\n' then ' ' else x) hc
  have hflat : (flattenNewlines s).toList
      = s.toList.map (fun x => if x = '\n' then ' ' else x) := rfl
  rw [hflat]
  simpa [hcn] using hmem

theorem processBlock_spec (tag : String) (st : LoopState) (b : Block) :
    processBlock tag st b = st ∨
    ∃ hsh tw, hsh ∉ st.seen
      ∧ (tw.content.toList.any fun c => !c.isWhitespace) = true
      ∧ processBlock tag st b = { seen := hsh :: st.seen, tweets := st.tweets ++ [(hsh, tw)] } := by
  simp only [processBlock]
  split_ifs with h1 h2 h3
  · exact Or.inl rfl
  · exact Or.inl rfl
  · exact Or.inl rfl
  · right
    refine ⟨get_tweet_hash (b.user_text.getD na) (b.time_attr.getD na) b.content,
      { hashtag := tag, username := b.user_text.getD na
        timestamp := b.time_attr.getD na
        content := flattenNewlines b.content
        likes := (b.likes_text.map parse_count).getD 0
        retweets := (b.retweets_text.map parse_count).getD 0
        mentions := String.intercalate commaSep
          ((findTags '@' b.content.toList).map (fun l => String.mk l))
        hashtags := String.intercalate commaSep
          ((findTags '#' b.content.toList).map (fun l => String.mk l)) },
      h3, flatten_any_nonws h2, rfl⟩

theorem CollectInv.step {base : List String} {st : LoopState} (tag : String) (b : Block)
    (h : CollectInv base st) : CollectInv base (processBlock tag st b) := by
  rcases processBlock_spec tag st b with heq | ⟨hsh, tw, hnotin, hany, heq⟩
  · rw [heq]
    exact h
  · rw [heq]
    obtain ⟨h1, h2, h3, h4, h5, h6⟩ := h
    refine ⟨?_, ?_, ?_, ?_, ?_, ?_⟩
    · rw [DistinctHashes, List.pairwise_append]
      refine ⟨h1, List.pairwise_singleton _ _, ?_⟩
      intro p hp q hq
      rw [List.mem_singleton] at hq
      subst hq
      intro hpe
      apply hnotin
      have hpe2 : p.1 = hsh := hpe
      rw [← hpe2]
      exact h2 p hp
    · intro p hp
      rcases List.mem_append.mp hp with hp1 | hp2
      · exact List.mem_cons_of_mem _ (h2 p hp1)
      · rw [List.mem_singleton] at hp2
        subst hp2
        exact List.mem_cons_self _ _
    · intro x hx
      exact List.mem_cons_of_mem _ (h3 x hx)
    · intro x hx
      rcases List.mem_cons.mp hx with hx1 | hx2
      · subst hx1
        right
        rw [List.map_append]
        exact List.mem_append.mpr (Or.inr (by simp))
      · rcases h4 x hx2 with hb | ht
        · exact Or.inl hb
        · right
          rw [List.map_append]
          exact List.mem_append.mpr (Or.inl ht)
    · intro p hp
      rcases List.mem_append.mp hp with hp1 | hp2
      · exact h5 p hp1
      · rw [List.mem_singleton] at hp2
        subst hp2
        exact fun hb => hnotin (h3 _ hb)
    · intro p hp
      rcases List.mem_append.mp hp with hp1 | hp2
      · exact h6 p hp1
      · rw [List.mem_singleton] at hp2
        subst hp2
        exact hany

theorem blocksLoop_inv {base : List String} (tag : String) (maxT : Nat)
    (bs : List Block) : ∀ st : LoopState, CollectInv base st →
    CollectInv base (blocksLoop tag maxT bs st).1 := by
  induction bs with
  | nil => exact fun st h => h
  | cons b rest ih =>
    intro st h
    simp only [blocksLoop]
    split_ifs with hc
    · exact CollectInv.step tag b h
    · exact ih _ (CollectInv.step tag b h)

theorem scrollLoop_inv {base : List String} (tag : String) (maxT : Nat)
    (feed : List (List Block)) : ∀ st : LoopState, CollectInv base st →
    CollectInv base (scrollLoop tag maxT feed st) := by
  induction feed with
  | nil => exact fun st h => h
  | cons blocks rest ih =>
    intro st h
    simp only [scrollLoop]
    split_ifs with hc
    · exact blocksLoop_inv tag maxT blocks st h
    · exact ih _ (blocksLoop_inv tag maxT blocks st h)

theorem scroll_and_collect_inv (tag : String) (feed : List (List Block))
    (seen : List String) (maxT ms : Nat) :
    CollectInv seen (scroll_and_collect_tweets tag feed seen maxT ms) := by
  apply scrollLoop_inv
  exact ⟨List.Pairwise.nil, by simp, fun x hx => hx, fun x hx => Or.inl hx,
    by simp, by simp⟩

theorem processBlock_len (tag : String) (st : LoopState) (b : Block) :
    (processBlock tag st b).tweets.length = st.tweets.length
    ∨ (processBlock tag st b).tweets.length = st.tweets.length + 1 := by
  rcases processBlock_spec tag st b with heq | ⟨hsh, tw, _, _, heq⟩ <;>
    rw [heq] <;> simp

theorem blocksLoop_cap (tag : String) (maxT : Nat) (bs : List Block) :
    ∀ st : LoopState, st.tweets.length < maxT →
    ((blocksLoop tag maxT bs st).2 = true →
      (blocksLoop tag maxT bs st).1.tweets.length = maxT)
    ∧ ((blocksLoop tag maxT bs st).2 = false →
      (blocksLoop tag maxT bs st).1.tweets.length < maxT) := by
  induction bs with
  | nil =>
    intro st h
    simp only [blocksLoop]
    exact ⟨fun hx => by simp at hx, fun _ => h⟩
  | cons b rest ih =>
    intro st h
    simp only [blocksLoop]
    have hlen := processBlock_len tag st b
    split_ifs with hc
    · refine ⟨fun _ => ?_, fun hx => by simp at hx⟩
      change (processBlock tag st b).tweets.length = maxT
      omega
    · apply ih
      omega

theorem scrollLoop_cap (tag : String) (maxT : Nat) (feed : List (List Block)) :
    ∀ st : LoopState, st.tweets.length < maxT →
    (scrollLoop tag maxT feed st).tweets.length ≤ maxT := by
  induction feed with
  | nil => exact fun st h => le_of_lt h
  | cons blocks rest ih =>
    intro st h
    simp only [scrollLoop]
    split_ifs with hc
    · exact le_of_eq ((blocksLoop_cap tag maxT blocks st h).1 hc)
    · exact ih _ ((blocksLoop_cap tag maxT blocks st h).2 (by simpa using hc))

theorem scrollLoop_extend (tag : String) (maxT : Nat) (feed : List (List Block)) :
    ∀ st : LoopState, st.tweets.length < maxT →
    (scrollLoop tag maxT feed st).tweets.length = maxT →
    ∀ extra, scrollLoop tag maxT (feed ++ extra) st = scrollLoop tag maxT feed st := by
  induction feed with
  | nil =>
    intro st h hcap extra
    exfalso
    simp only [scrollLoop] at hcap
    omega
  | cons blocks rest ih =>
    intro st h hcap extra
    rw [List.cons_append]
    cases hb : (blocksLoop tag maxT blocks st).2 with
    | true => simp [scrollLoop, hb]
    | false =>
      simp only [scrollLoop, hb, Bool.false_eq_true, if_false] at hcap ⊢
      exact ih _ ((blocksLoop_cap tag maxT blocks st h).2 hb) hcap extra

theorem pairwise_filter_length_le {l : List (String × Tweet)}
    (h : DistinctHashes l) (hsh : String) :
    (l.filter (fun p => p.1 = hsh)).length ≤ 1 := by
  induction l with
  | nil => simp
  | cons a t ih =>
    rcases List.pairwise_cons.mp h with ⟨ha, ht⟩
    rw [List.filter_cons]
    by_cases hc : a.1 = hsh
    · have hnil : t.filter (fun p => p.1 = hsh) = [] := by
        apply List.filter_eq_nil_iff.mpr
        intro b hb
        simp only [decide_eq_true_eq]
        exact fun hbe => ha b hb (hc ▸ hbe ▸ rfl)
      simp [hc, hnil]
    · simpa [hc] using ih ht

theorem tagsLoop_inv (maxT ms : Nat) : ∀ (tfs : List TagFeed) (seen : List String)
    (all : List (String × Tweet)),
    DistinctHashes all → (∀ p ∈ all, p.1 ∈ seen) →
    DistinctHashes (tagsLoop maxT ms tfs seen all).2
    ∧ ∀ p ∈ (tagsLoop maxT ms tfs seen all).2, p.1 ∈ (tagsLoop maxT ms tfs seen all).1 := by
  intro tfs
  induction tfs with
  | nil => exact fun seen all h1 h2 => ⟨h1, h2⟩
  | cons tf rest ih =>
    intro seen all h1 h2
    cases htf : tf.feed with
    | none =>
      simp only [tagsLoop, htf]
      exact ih seen all h1 h2
    | some f =>
      simp only [tagsLoop, htf]
      obtain ⟨i1, i2, i3, i4, i5, i6⟩ := scroll_and_collect_inv tf.tag f seen maxT ms
      apply ih
      · rw [DistinctHashes, List.pairwise_append]
        exact ⟨h1, i1, fun a ha b hb he => (i5 b hb) (he ▸ h2 a ha)⟩
      · intro p hp
        rcases List.mem_append.mp hp with hp1 | hp2
        · exact i3 _ (h2 p hp1)
        · exact i2 p hp2

/-! ## Claims about the collector -/

/-- C2: across one whole multi-hashtag run the retained records carry
pairwise distinct ContentHashes, so for any hash value (equivalently,
any author-timestamp-body triple) at most one record appears in the
merged output, regardless of feed contents and scroll order. -/
theorem claim_C2_dedup (tfs : List TagFeed) (maxT ms : Nat) :
    DistinctHashes (scrape_multiple_tags_core tfs maxT ms).1
    ∧ ∀ hsh : String, ((scrape_multiple_tags_core tfs maxT ms).1.filter
        (fun p => p.1 = hsh)).length ≤ 1 := by
  have h := tagsLoop_inv maxT ms tfs [] [] List.Pairwise.nil (by simp)
  exact ⟨h.1, fun hsh => pairwise_filter_length_le h.1 hsh⟩

/-- C3 counterexample: with maxPosts = 0 the cap check only runs after
the first append, so a one-container feed yields one record: output
length 1 exceeds the bound 0. -/
theorem claim_C3_counterexample :
    (scroll_and_collect_tweets exTag [[exBlock]] [] 0 5).tweets.length = 1
    ∧ ¬((scroll_and_collect_tweets exTag [[exBlock]] [] 0 5).tweets.length ≤ 0) := by
  constructor <;> decide

/-- C3 amended: for every maxPosts bound of at least 1 the collector
returns at most maxPosts records, and once the count reaches maxPosts
it returns immediately: any further scroll contents appended to the
feed leave the result unchanged. With maxPosts = 0 the bound fails by
one because the cap test runs only after an append. -/
theorem claim_C3_cap (tag : String) (feed : List (List Block))
    (seen : List String) (maxT ms : Nat) (h : 1 ≤ maxT) :
    (scroll_and_collect_tweets tag feed seen maxT ms).tweets.length ≤ maxT
    ∧ ((scroll_and_collect_tweets tag feed seen maxT ms).tweets.length = maxT →
        ∀ extra, scrollLoop tag maxT (feed.take ms ++ extra)
            { seen := seen, tweets := [] }
          = scroll_and_collect_tweets tag feed seen maxT ms) := by
  have h0 : ({ seen := seen, tweets := [] } : LoopState).tweets.length < maxT := by
    simpa using h
  exact ⟨scrollLoop_cap tag maxT (feed.take ms) _ h0,
    fun hcap extra => scrollLoop_extend tag maxT (feed.take ms) _ h0 hcap extra⟩

/-- C3 witness: on a two-container feed with cap 1 the output has at
most one record. -/
theorem claim_C3_witness :
    (scroll_and_collect_tweets exTag [[exBlock, exBlock2]] [] 1 5).tweets.length ≤ 1 :=
  (claim_C3_cap exTag [[exBlock, exBlock2]] [] 1 5 (by decide)).1

/-- C8: the orchestrator reports the noData outcome exactly when the
merged record list is empty after all hashtags, and a nonempty merged
list is reported as the saved outcome carrying the row count, so an
empty run is distinguishable from a successful one. -/
theorem claim_C8_no_data_outcome (tfs : List TagFeed) (maxT ms : Nat) :
    ((scrape_multiple_tags_core tfs maxT ms).2 = ScrapeOutcome.noData ↔
      (scrape_multiple_tags_core tfs maxT ms).1 = [])
    ∧ ((scrape_multiple_tags_core tfs maxT ms).1 ≠ [] →
        (scrape_multiple_tags_core tfs maxT ms).2
          = ScrapeOutcome.saved (scrape_multiple_tags_core tfs maxT ms).1.length) := by
  simp only [scrape_multiple_tags_core]
  by_cases he : (tagsLoop maxT ms tfs [] []).2.isEmpty
  · have hnil : (tagsLoop maxT ms tfs [] []).2 = [] := by
      simpa [List.isEmpty_iff] using he
    simp [he, hnil]
  · have hne : (tagsLoop maxT ms tfs [] []).2 ≠ [] := by
      simpa [List.isEmpty_iff] using he
    simp [he, hne]

/-- C8 witness: a run with no hashtags collects nothing and reports the
noData outcome. -/
theorem claim_C8_witness :
    (scrape_multiple_tags_core [] 5 5).2 = ScrapeOutcome.noData :=
  ((claim_C8_no_data_outcome [] 5 5).1).mpr (by decide)

/-- C10: every record retained by the collection loop has a body with a
non-whitespace character (the whitespace-only check skips the container
before hashing), and every hash in the final seen set is either a hash
seen at entry or the hash of a retained record, so a skipped container
never enters the seen set. -/
theorem claim_C10_nonblank_bodies (tag : String) (feed : List (List Block))
    (seen : List String) (maxT ms : Nat) :
    (∀ p ∈ (scroll_and_collect_tweets tag feed seen maxT ms).tweets,
      (p.2.content.toList.any fun c => !c.isWhitespace) = true)
    ∧ ∀ x ∈ (scroll_and_collect_tweets tag feed seen maxT ms).seen,
        x ∈ seen ∨ x ∈ (scroll_and_collect_tweets tag feed seen maxT ms).tweets.map Prod.fst := by
  obtain ⟨i1, i2, i3, i4, i5, i6⟩ := scroll_and_collect_inv tag feed seen maxT ms
  exact ⟨i6, i4⟩

/-- C10 witness: the record retained for the hello container has a
non-whitespace body. -/
theorem claim_C10_witness :
    (exPair.2.content.toList.any fun c => !c.isWhitespace) = true :=
  (claim_C10_nonblank_bodies exTag [[exBlock]] [] 5 5).1 exPair (by decide)

end Scrapper
